import Mathlib

/-!
Verification development for the RBAC-matcher server (src/server.py).

The embedding models the pure content of the server code:
  - Cell values of a parsed table (pandas cells: a value or NA),
  - DataFrame as a header list plus rows of cells,
  - a networkx-style directed graph with attribute bags,
  - build_graph_from_df (server.py lines 82-98),
  - find_matching_file (server.py lines 59-80) with the module-level
    SUGGESTION_MEMORY dict made an explicit argument/result,
  - the filter / required-column / build / output portion of the
    xlsx_to_org_chart tool (server.py lines 201-227).

File-system facts (os.path.exists) are a Boolean oracle argument; the
rapidfuzz similarity scorer (an external library, not repository code)
is an abstracted scorer argument returning a rational score on the
0-100 scale used by the library.
-/

/-- ASCII lowercasing of one character, as Python str.lower acts on the
ASCII inputs in play. -/
def lowerChar (c : Char) : Char :=
  if 65 ≤ c.toNat ∧ c.toNat ≤ 90 then Char.ofNat (c.toNat + 32) else c

/-- Python str.lower. -/
def pyLower (s : String) : String :=
  String.mk (s.toList.map lowerChar)

/-- Whitespace as stripped by Python str.strip (the ASCII whitespace
characters). -/
def isSpaceChar (c : Char) : Bool :=
  c == ' ' || c == '\t' || c == '\n' || c == '\r'

/-- Python str.strip with no argument: drop leading and trailing
whitespace. -/
def pyStrip (s : String) : String :=
  String.mk (((s.toList.dropWhile isSpaceChar).reverse.dropWhile isSpaceChar).reverse)

/-- Split a character list at every occurrence of a separator character. -/
def splitOnCharAux (sep : Char) : List Char → List Char → List (List Char)
  | [], acc => [acc.reverse]
  | c :: cs, acc =>
      if c == sep then acc.reverse :: splitOnCharAux sep cs []
      else splitOnCharAux sep cs (c :: acc)

/-- Python str.split with a one-character separator (infinite maxsplit):
the empty string yields one empty fragment. -/
def splitOnChar (sep : Char) (s : String) : List String :=
  (splitOnCharAux sep s.toList []).map String.mk

/-- A table cell: either missing (pandas NA) or a (stringified) value.
pd.notna corresponds to being different from na. -/
inductive Cell where
  | na : Cell
  | str : String → Cell
deriving DecidableEq

/-- Python str(...) view of a cell, as produced by .astype(str):
NA prints as "nan". -/
def Cell.pyStr : Cell → String
  | .na => "nan"
  | .str s => s

/-- A parsed table: column headers and rows of cells (row i, column j). -/
structure DataFrame where
  cols : List String
  rows : List (List Cell)
deriving DecidableEq

/-- row[col]: the cell of a row under the first column with that name. -/
def rowGet (cols : List String) (row : List Cell) (c : String) : Cell :=
  match cols.findIdx? (fun x => x == c) with
  | some i => row.getD i Cell.na
  | none => Cell.na

/-- Attribute bag of a graph node (a Python dict, insertion ordered). -/
abbrev Attrs := List (String × Cell)

/-- dict[k] = v : replace an existing binding in place or append a new one. -/
def attrInsert (attrs : Attrs) (k : String) (v : Cell) : Attrs :=
  if attrs.any (fun p => p.1 == k) then
    attrs.map (fun p => if p.1 == k then (k, v) else p)
  else attrs ++ [(k, v)]

/-- dict.update(other): insert every binding of the second dict. -/
def attrUpdate (old new : Attrs) : Attrs :=
  new.foldl (fun a p => attrInsert a p.1 p.2) old

/-- row.to_dict(): column names mapped to the cells of the row. -/
def rowToDict (cols : List String) (row : List Cell) : Attrs :=
  (cols.zip row).foldl (fun a p => attrInsert a p.1 p.2) []

/-- A directed edge with its attribute (only "relation" is ever set). -/
structure Edge where
  src : Cell
  tgt : Cell
  relation : String
deriving DecidableEq

/-- networkx.DiGraph: node list with attribute bags, edge list. -/
structure DiGraph where
  nodes : List (Cell × Attrs)
  edges : List Edge
deriving DecidableEq

/-- G.add_node(n, **attrs): update the attribute bag of an existing node,
or append a new node. -/
def addNodeList (nodes : List (Cell × Attrs)) (n : Cell) (attrs : Attrs) :
    List (Cell × Attrs) :=
  if nodes.any (fun p => p.1 == n) then
    nodes.map (fun p => if p.1 == n then (n, attrUpdate p.2 attrs) else p)
  else nodes ++ [(n, attrs)]

/-- The node-creating side of G.add_edge: a missing endpoint is added
with an empty attribute bag, an existing one is untouched. -/
def ensureNode (nodes : List (Cell × Attrs)) (n : Cell) : List (Cell × Attrs) :=
  if nodes.any (fun p => p.1 == n) then nodes else nodes ++ [(n, [])]

/-- The edge side of G.add_edge(u, v, relation=rel): update the attributes
of an existing (u, v) edge, or append a new edge. -/
def addEdgeList (edges : List Edge) (u v : Cell) (rel : String) : List Edge :=
  if edges.any (fun e => e.src == u && e.tgt == v) then
    edges.map (fun e => if e.src == u && e.tgt == v then { e with relation := rel } else e)
  else edges ++ [⟨u, v, rel⟩]

/-- G.add_node with attributes. -/
def DiGraph.addNode (G : DiGraph) (n : Cell) (attrs : Attrs) : DiGraph :=
  { G with nodes := addNodeList G.nodes n attrs }

/-- G.add_edge(u, v, relation=rel). -/
def DiGraph.addEdge (G : DiGraph) (u v : Cell) (rel : String) : DiGraph :=
  { nodes := ensureNode (ensureNode G.nodes u) v,
    edges := addEdgeList G.edges u v rel }

/-- One loop iteration of build_graph_from_df (server.py lines 89-97):
add the row as a node (with the manager reference materialized in the
attribute bag), then, if the manager value is present, non-empty and not
the node itself, add the edge (node_id, manager_id) labeled "reports_to". -/
def buildStep (cols : List String) (aCol mCol : String) (G : DiGraph)
    (row : List Cell) : DiGraph :=
  let node_id := rowGet cols row aCol
  let manager_id := rowGet cols row mCol
  let attributes := attrInsert (rowToDict cols row) "reports to manager id" manager_id
  let G1 := G.addNode node_id attributes
  if manager_id ≠ Cell.na ∧ manager_id ≠ Cell.str "" ∧ manager_id ≠ node_id then
    G1.addEdge node_id manager_id "reports_to"
  else G1

/-- build_graph_from_df (server.py lines 82-98). -/
def build_graph_from_df (df : DataFrame) (aCol mCol : String) : DiGraph :=
  df.rows.foldl (buildStep df.cols aCol mCol) ⟨[], []⟩

/-! ## File resolver (server.py lines 56-80) -/

/-- The module-level SUGGESTION_MEMORY dict, session id to suggested path. -/
abbrev Memory := List (String × String)

/-- Dict lookup by key. -/
def lookupKey (m : Memory) (k : String) : Option String :=
  (m.find? (fun p => p.1 == k)).map (fun p => p.2)

/-- Dict pop / del by key. -/
def eraseKey (m : Memory) (k : String) : Memory :=
  m.filter (fun p => p.1 != k)

/-- Dict assignment m[k] = v (position of the binding is irrelevant
to lookup; modelled as erase plus append). -/
def insertKey (m : Memory) (k v : String) : Memory :=
  eraseKey m k ++ [(k, v)]

/-- os.path.join for the two-argument uses in the server: an absolute
second component discards the first. -/
def osPathJoin (a b : String) : String :=
  if b.toList.head? == some '/' then b
  else if a.toList.getLast? == some '/' then a ++ b
  else a ++ "/" ++ b

/-- Python truthiness of an optional string: None and "" are falsy. -/
def truthyOpt : Option String → Bool
  | none => false
  | some s => !s.toList.isEmpty

/-- The four possible return shapes of find_matching_file, abstracting the
returned strings: a resolved path, the suggestion message naming a file,
the no-match message naming the reference and the candidate list, and the
no-reference message with the candidate list. -/
inductive FindResult where
  | resolved : String → FindResult
  | prompt : String → FindResult
  | notFound : String → List String → FindResult
  | noReference : List String → FindResult
deriving DecidableEq

/-- rapidfuzz process.extractOne: best-scoring choice, first one wins on
ties (the running best is replaced only on a strictly greater score).
Returns none on an empty choice list. -/
def extractOne (scorer : String → String → ℚ) (query : String) :
    List String → Option (String × ℚ)
  | [] => none
  | c :: cs =>
      some (cs.foldl (fun best x =>
        if scorer query x > best.2 then (x, scorer query x) else best)
        (c, scorer query c))

/-- The elif-chain of find_matching_file after the confirmation branch
(server.py lines 67-80): direct path-existence match, else fuzzy
suggestion above the 60 threshold (cached), else no-match or
no-reference message. The none branch of the match is unreachable:
it is guarded by the candidate list being non-empty. -/
def findRest (pathOnDisk : String → Bool) (scorer : String → String → ℚ)
    (file_reference : Option String) (files : List String)
    (session_id : String) (memory : Memory) : FindResult × Memory :=
  if truthyOpt file_reference &&
      pathOnDisk (osPathJoin "/data" (file_reference.getD "")) then
    (FindResult.resolved (osPathJoin "/data" (file_reference.getD "")), memory)
  else if truthyOpt file_reference && !files.isEmpty then
    match extractOne scorer (file_reference.getD "") files with
    | some (fname, score) =>
        if score > 60 then
          (FindResult.prompt fname,
           insertKey memory session_id (osPathJoin "/data" fname))
        else (FindResult.notFound (file_reference.getD "") files, memory)
    | none => (FindResult.noReference files, memory)
  else (FindResult.noReference files, memory)

/-- find_matching_file (server.py lines 59-80), with SUGGESTION_MEMORY
passed and returned explicitly. The confirmation branch fires when
proceed is truthy, lowercases to "yes" and the session has a cached
suggestion; it returns the popped suggestion. -/
def find_matching_file (pathOnDisk : String → Bool) (scorer : String → String → ℚ)
    (file_reference : Option String) (files : List String)
    (session_id : String) (proceed : Option String) (memory : Memory) :
    FindResult × Memory :=
  if truthyOpt proceed && (pyLower (proceed.getD "") == "yes") then
    match lookupKey memory session_id with
    | some suggestion => (FindResult.resolved suggestion, eraseKey memory session_id)
    | none => findRest pathOnDisk scorer file_reference files session_id memory
  else findRest pathOnDisk scorer file_reference files session_id memory

/-! ## The xlsx_to_org_chart pipeline after file reading
(server.py lines 161-176 and 201-227) -/

/-- kv.split("=", 1): the part before the first equals sign and the part
after it. -/
def splitFirstEq (s : String) : String × String :=
  (String.mk (s.toList.takeWhile (fun ch => ch != '=')),
   String.mk ((s.toList.dropWhile (fun ch => ch != '=')).drop 1))

/-- The filter parse of line 203: split on commas, keep only fragments
containing an equals sign, split each at the first equals sign. -/
def parseFilters (f : String) : List (String × String) :=
  ((splitOnChar ',' f).filter (fun kv => kv.toList.contains '=')).map splitFirstEq

/-- The dict comprehension of line 202 followed by .get: the last column
whose lowercased, trimmed name equals the key. -/
def normLookup (cols : List String) (key : String) : Option String :=
  (cols.filter (fun c => pyStrip (pyLower c) == key)).getLast?

/-- The filter loop of lines 204-214: keys are trimmed and lowercased,
values trimmed; a resolved key narrows the rows to those whose
stringified cell, lowercased, equals the lowercased value; an
unresolved key stops with the error message naming the key and the
column list. Column resolution uses the mapping precomputed from the
original columns (cols0). -/
def applyFilters (cols0 : List String) :
    DataFrame → List (String × String) → Except String DataFrame
  | df, [] => Except.ok df
  | df, (k, v) :: rest =>
      let key := pyLower (pyStrip k)
      let value := pyStrip v
      match normLookup cols0 key with
      | some colname =>
          applyFilters cols0
            ⟨df.cols,
             df.rows.filter (fun row =>
               pyLower (rowGet df.cols row colname).pyStr == pyLower value)⟩
            rest
      | none =>
          Except.error ("Filter column \x27" ++ key ++
            "\x27 not found. Available columns are: " ++
            String.intercalate ", " df.cols)

/-- Spaces (the space character, as Python replace(" ", "")) removed. -/
def removeSpaces (s : String) : String :=
  String.mk (s.toList.filter (fun ch => ch != ' '))

/-- sanitize_filter_for_filename (server.py lines 161-176). -/
def sanitize_filter_for_filename (filter? : Option String) : String :=
  match filter? with
  | none => ""
  | some f =>
      if f.toList.isEmpty then ""
      else
        let pairs := ((splitOnChar ',' f).filter (fun kv => kv.toList.contains '=')).map
          (fun kv => removeSpaces (pyStrip kv))
        pairs.foldl (fun suffix p =>
          suffix ++ "_" ++ removeSpaces (pyStrip (splitFirstEq p).1) ++ "_" ++
            removeSpaces (pyStrip (splitFirstEq p).2)) ""

/-- os.path.basename: the part after the last slash. -/
def basename (p : String) : String :=
  (splitOnChar '/' p).getLastD p

/-- The stem of os.path.splitext: everything before the last dot, except
that dots leading the name do not start an extension. -/
def splitextStem (b : String) : String :=
  let cs := b.toList
  let lead := (cs.takeWhile (fun ch => ch == '.')).length
  let rest := cs.drop lead
  let k := (rest.reverse.takeWhile (fun ch => ch != '.')).length
  if k < rest.length then String.mk (cs.take lead ++ rest.take (rest.length - k - 1))
  else b

/-- The output path computed by save_network_html (lines 148-152):
os.path.join("output", stem of the input basename plus suffix plus
".html"). -/
def outputPath (matchedFile : String) (suffix : String) : String :=
  "output/" ++ splitextStem (basename matchedFile) ++ suffix ++ ".html"

/-- Line 217-219: the required canonical names not hit by any column
after lowercasing (no trimming happens here, unlike line 202). -/
def requiredMissing (cols : List String) : List String :=
  (["associate id", "reports to manager id"]).filter
    (fun r => !((cols.map pyLower).contains r))

/-- Lines 217, 222-223: dict of lowercased (untrimmmed) column names to
original names, last duplicate winning, then lookup. -/
def normLookupNoTrim (cols : List String) (key : String) : Option String :=
  (cols.filter (fun c => pyLower c == key)).getLast?

/-- The xlsx_to_org_chart tool body from the point where the table has
been read (server.py lines 201-227), returning the string the tool
returns: the filter stage (only run for a truthy filter), the empty
check, the required-column check, then graph build, render and the
success message. The graph itself is build_graph_from_df of the
filtered table at the resolved column names. -/
def processDf (df : DataFrame) (filter? : Option String) (matchedFile : String) :
    String :=
  let dfStep : Except String DataFrame :=
    match filter? with
    | some f => if f.toList.isEmpty then Except.ok df else applyFilters df.cols df (parseFilters f)
    | none => Except.ok df
  match dfStep with
  | Except.error msg => msg
  | Except.ok df1 =>
      if df1.rows.isEmpty || df1.cols.isEmpty then
        "No results found for your filter and file. Please try again with different criteria."
      else if !(requiredMissing df1.cols).isEmpty then
        "Missing required columns: " ++ String.intercalate ", " (requiredMissing df1.cols)
      else
        "Chart created: " ++
          outputPath matchedFile ("_org_chart" ++ sanitize_filter_for_filename filter?)

/-- The graph built by the tool for a table that passes the checks:
build_graph_from_df at the column names resolved by the lowercase-only
mapping of lines 217 and 222-223. -/
def toolGraph (df : DataFrame) : DiGraph :=
  build_graph_from_df df
    ((normLookupNoTrim df.cols "associate id").getD "")
    ((normLookupNoTrim df.cols "reports to manager id").getD "")

/-! ## Lemmas about graph construction -/

/-- Adding an edge makes its own (src, tgt, relation) triple a member:
either the fresh edge is appended, or the existing (u, v) entry is
rewritten to carry exactly this relation. -/
lemma mem_addEdgeList_self (edges : List Edge) (u v : Cell) (rel : String) :
    Edge.mk u v rel ∈ addEdgeList edges u v rel := by
  unfold addEdgeList
  split
  · rename_i h
    rw [List.any_eq_true] at h
    obtain ⟨e0, he0, hc⟩ := h
    rw [Bool.and_eq_true, beq_iff_eq, beq_iff_eq] at hc
    have heq : (fun e => if e.src == u && e.tgt == v then { e with relation := rel } else e) e0
        = Edge.mk u v rel := by
      dsimp only
      split
      · cases e0
        simp_all
      · rename_i hcond
        exact absurd (by rw [Bool.and_eq_true, beq_iff_eq, beq_iff_eq]; exact hc) hcond
    exact heq ▸ List.mem_map_of_mem _ he0
  · exact List.mem_append_right _ (List.mem_singleton.mpr rfl)

/-- An edge already carrying the inserted relation survives add_edge
unchanged. -/
lemma mem_addEdgeList_of_mem (edges : List Edge) (u v : Cell) (rel : String) (e : Edge)
    (he : e ∈ edges) (hrel : e.relation = rel) :
    e ∈ addEdgeList edges u v rel := by
  unfold addEdgeList
  split
  · have heq : (fun e => if e.src == u && e.tgt == v then { e with relation := rel } else e) e
        = e := by
      dsimp only
      split
      · cases e; simp_all
      · rfl
    exact heq ▸ List.mem_map_of_mem _ he
  · exact List.mem_append_left _ he

/-- One build iteration never loses a "reports_to" edge. -/
lemma buildStep_edges_mono (cols : List String) (aCol mCol : String) (G : DiGraph)
    (row : List Cell) (e : Edge) (hrel : e.relation = "reports_to") (he : e ∈ G.edges) :
    e ∈ (buildStep cols aCol mCol G row).edges := by
  unfold buildStep
  dsimp only
  split
  · exact mem_addEdgeList_of_mem _ _ _ _ _ he hrel
  · exact he

/-- The whole build loop never loses a "reports_to" edge. -/
lemma foldl_buildStep_edges_mono (cols : List String) (aCol mCol : String)
    (rows : List (List Cell)) (G : DiGraph) (e : Edge)
    (hrel : e.relation = "reports_to") (he : e ∈ G.edges) :
    e ∈ (rows.foldl (buildStep cols aCol mCol) G).edges := by
  induction rows generalizing G with
  | nil => exact he
  | cons r rs ih => exact ih _ (buildStep_edges_mono _ _ _ _ _ _ hrel he)

/-- A row whose manager value passes the guard contributes the edge
(node id, manager id, "reports_to") in its iteration. -/
lemma buildStep_adds_edge (cols : List String) (aCol mCol : String) (G : DiGraph)
    (row : List Cell)
    (h : rowGet cols row mCol ≠ Cell.na ∧ rowGet cols row mCol ≠ Cell.str "" ∧
         rowGet cols row mCol ≠ rowGet cols row aCol) :
    Edge.mk (rowGet cols row aCol) (rowGet cols row mCol) "reports_to"
      ∈ (buildStep cols aCol mCol G row).edges := by
  unfold buildStep
  dsimp only
  rw [if_pos h]
  exact mem_addEdgeList_self _ _ _ _

/-- Every row passing the manager guard yields its (id, manager) edge in
the final graph. -/
lemma edge_mem_build (df : DataFrame) (aCol mCol : String) (row : List Cell)
    (hrow : row ∈ df.rows)
    (hna : rowGet df.cols row mCol ≠ Cell.na)
    (hne : rowGet df.cols row mCol ≠ Cell.str "")
    (hself : rowGet df.cols row mCol ≠ rowGet df.cols row aCol) :
    Edge.mk (rowGet df.cols row aCol) (rowGet df.cols row mCol) "reports_to"
      ∈ (build_graph_from_df df aCol mCol).edges := by
  unfold build_graph_from_df
  have hgen : ∀ (rows : List (List Cell)) (G : DiGraph), row ∈ rows →
      Edge.mk (rowGet df.cols row aCol) (rowGet df.cols row mCol) "reports_to"
        ∈ (rows.foldl (buildStep df.cols aCol mCol) G).edges := by
    intro rows
    induction rows with
    | nil => intro G h; cases h
    | cons r rs ih =>
        intro G h
        rw [List.foldl_cons]
        rcases List.mem_cons.mp h with rfl | hmem
        · exact foldl_buildStep_edges_mono df.cols aCol mCol rs
            (buildStep df.cols aCol mCol G row) _ rfl
            (buildStep_adds_edge _ _ _ _ _ ⟨hna, hne, hself⟩)
        · exact ih _ hmem
  exact hgen df.rows _ hrow

/-- The per-edge invariant of the build guard: never a self-loop, never a
missing or empty manager as target. -/
def EdgeOk (e : Edge) : Prop :=
  e.src ≠ e.tgt ∧ e.tgt ≠ Cell.na ∧ e.tgt ≠ Cell.str ""

/-- add_edge preserves the edge invariant when the inserted pair
satisfies it: rewritten entries keep their endpoints. -/
lemma addEdgeList_all_ok (edges : List Edge) (u v : Cell) (rel : String)
    (hall : ∀ e ∈ edges, EdgeOk e)
    (huv : u ≠ v) (hvna : v ≠ Cell.na) (hve : v ≠ Cell.str "") :
    ∀ e ∈ addEdgeList edges u v rel, EdgeOk e := by
  unfold addEdgeList
  split
  · intro e he
    rw [List.mem_map] at he
    obtain ⟨e0, he0, rfl⟩ := he
    have h0 := hall e0 he0
    split
    · exact h0
    · exact h0
  · intro e he
    rcases List.mem_append.mp he with h | h
    · exact hall e h
    · rw [List.mem_singleton] at h
      subst h
      exact ⟨huv, hvna, hve⟩

/-- One build iteration preserves the edge invariant on all edges. -/
lemma buildStep_all_ok (cols : List String) (aCol mCol : String) (G : DiGraph)
    (row : List Cell) (hall : ∀ e ∈ G.edges, EdgeOk e) :
    ∀ e ∈ (buildStep cols aCol mCol G row).edges, EdgeOk e := by
  unfold buildStep
  dsimp only
  split
  · rename_i h
    exact addEdgeList_all_ok _ _ _ _ hall (Ne.symm h.2.2) h.1 h.2.1
  · exact hall

/-- The build loop preserves the edge invariant. -/
lemma foldl_buildStep_all_ok (cols : List String) (aCol mCol : String)
    (rows : List (List Cell)) (G : DiGraph) (hall : ∀ e ∈ G.edges, EdgeOk e) :
    ∀ e ∈ (rows.foldl (buildStep cols aCol mCol) G).edges, EdgeOk e := by
  induction rows generalizing G with
  | nil => exact hall
  | cons r rs ih => exact ih _ (buildStep_all_ok _ _ _ _ _ hall)

/-! ## Node-key lemmas -/

/-- add_node never removes a node key. -/
lemma any_key_addNodeList (nodes : List (Cell × Attrs)) (n : Cell) (attrs : Attrs)
    (x : Cell) (h : nodes.any (fun p => p.1 == x) = true) :
    (addNodeList nodes n attrs).any (fun p => p.1 == x) = true := by
  unfold addNodeList
  rw [List.any_eq_true] at h
  obtain ⟨p0, hp0, hkey⟩ := h
  split
  · rw [List.any_eq_true]
    refine ⟨_, List.mem_map_of_mem _ hp0, ?_⟩
    dsimp only
    split
    · rename_i hc
      rw [beq_iff_eq] at hc
      rw [← hc]
      exact hkey
    · exact hkey
  · rw [List.any_eq_true]
    exact ⟨p0, List.mem_append_left _ hp0, hkey⟩

/-- ensure-node never removes a node key. -/
lemma any_key_ensureNode (nodes : List (Cell × Attrs)) (n : Cell)
    (x : Cell) (h : nodes.any (fun p => p.1 == x) = true) :
    (ensureNode nodes n).any (fun p => p.1 == x) = true := by
  unfold ensureNode
  split
  · exact h
  · rw [List.any_eq_true] at h ⊢
    obtain ⟨p0, hp0, hkey⟩ := h
    exact ⟨p0, List.mem_append_left _ hp0, hkey⟩

/-- ensure-node leaves its own key present. -/
lemma any_key_ensureNode_self (nodes : List (Cell × Attrs)) (n : Cell) :
    (ensureNode nodes n).any (fun p => p.1 == n) = true := by
  unfold ensureNode
  split
  · assumption
  · rw [List.any_eq_true]
    exact ⟨(n, []), List.mem_append_right _ (List.mem_singleton.mpr rfl), by simp⟩

/-- One build iteration never removes a node key. -/
lemma buildStep_any_key_mono (cols : List String) (aCol mCol : String) (G : DiGraph)
    (row : List Cell) (x : Cell) (h : G.nodes.any (fun p => p.1 == x) = true) :
    (buildStep cols aCol mCol G row).nodes.any (fun p => p.1 == x) = true := by
  unfold buildStep
  dsimp only
  split
  · exact any_key_ensureNode _ _ _ (any_key_ensureNode _ _ _
      (any_key_addNodeList _ _ _ _ h))
  · exact any_key_addNodeList _ _ _ _ h

/-- The build loop never removes a node key. -/
lemma foldl_buildStep_any_key_mono (cols : List String) (aCol mCol : String)
    (rows : List (List Cell)) (G : DiGraph) (x : Cell)
    (h : G.nodes.any (fun p => p.1 == x) = true) :
    (rows.foldl (buildStep cols aCol mCol) G).nodes.any (fun p => p.1 == x) = true := by
  induction rows generalizing G with
  | nil => exact h
  | cons r rs ih => exact ih _ (buildStep_any_key_mono _ _ _ _ _ _ h)

/-- A row passing the manager guard makes the manager value a node key
in its iteration (via add_edge, which creates missing endpoints). -/
lemma buildStep_adds_manager_key (cols : List String) (aCol mCol : String) (G : DiGraph)
    (row : List Cell)
    (h : rowGet cols row mCol ≠ Cell.na ∧ rowGet cols row mCol ≠ Cell.str "" ∧
         rowGet cols row mCol ≠ rowGet cols row aCol) :
    (buildStep cols aCol mCol G row).nodes.any
      (fun p => p.1 == rowGet cols row mCol) = true := by
  unfold buildStep
  dsimp only
  rw [if_pos h]
  exact any_key_ensureNode_self _ _

/-- Every manager value passing the guard is a node key of the final
graph, whether or not any row defines it. -/
lemma manager_key_mem_build (df : DataFrame) (aCol mCol : String) (row : List Cell)
    (hrow : row ∈ df.rows)
    (hna : rowGet df.cols row mCol ≠ Cell.na)
    (hne : rowGet df.cols row mCol ≠ Cell.str "")
    (hself : rowGet df.cols row mCol ≠ rowGet df.cols row aCol) :
    (build_graph_from_df df aCol mCol).nodes.any
      (fun p => p.1 == rowGet df.cols row mCol) = true := by
  unfold build_graph_from_df
  have hgen : ∀ (rows : List (List Cell)) (G : DiGraph), row ∈ rows →
      (rows.foldl (buildStep df.cols aCol mCol) G).nodes.any
        (fun p => p.1 == rowGet df.cols row mCol) = true := by
    intro rows
    induction rows with
    | nil => intro G h; cases h
    | cons r rs ih =>
        intro G h
        rw [List.foldl_cons]
        rcases List.mem_cons.mp h with rfl | hmem
        · exact foldl_buildStep_any_key_mono df.cols aCol mCol rs
            (buildStep df.cols aCol mCol G row) _
            (buildStep_adds_manager_key _ _ _ _ _ ⟨hna, hne, hself⟩)
        · exact ih _ hmem
  exact hgen df.rows _ hrow

/-! ## Claims about the hierarchy builder -/

/-- One-row table: associate "A" with manager "B". -/
def dfC1 : DataFrame :=
  ⟨["Associate ID", "Reports To Manager ID"], [[Cell.str "A", Cell.str "B"]]⟩

/-- Claim C1 (counterexample): for the row with identifier "A" and
manager "B" (present, non-empty, not the row itself) the built graph
contains no edge with source "B" and target "A"; its only edge runs from
the report "A" to the manager "B". The claimed manager-to-report
direction is therefore false at this input. -/
theorem c1_counterexample :
    Edge.mk (Cell.str "B") (Cell.str "A") "reports_to"
        ∉ (build_graph_from_df dfC1 "Associate ID" "Reports To Manager ID").edges ∧
    (build_graph_from_df dfC1 "Associate ID" "Reports To Manager ID").edges
        = [Edge.mk (Cell.str "A") (Cell.str "B") "reports_to"] := by
  exact ⟨by decide, by decide⟩

/-- Claim C1 (amended): for every row whose manager value is present,
non-empty and different from the row identifier, the build adds a
directed edge whose source is the row identifier and whose target is the
manager identifier (direction report to manager), labeled "reports_to". -/
theorem c1_edge_direction (df : DataFrame) (aCol mCol : String) (row : List Cell)
    (hrow : row ∈ df.rows)
    (hna : rowGet df.cols row mCol ≠ Cell.na)
    (hne : rowGet df.cols row mCol ≠ Cell.str "")
    (hself : rowGet df.cols row mCol ≠ rowGet df.cols row aCol) :
    Edge.mk (rowGet df.cols row aCol) (rowGet df.cols row mCol) "reports_to"
      ∈ (build_graph_from_df df aCol mCol).edges :=
  edge_mem_build df aCol mCol row hrow hna hne hself

/-- Witness for c1_edge_direction at the concrete one-row table. -/
theorem c1_edge_direction_witness :
    ([Cell.str "A", Cell.str "B"] ∈ dfC1.rows) ∧
    Edge.mk (Cell.str "A") (Cell.str "B") "reports_to"
      ∈ (build_graph_from_df dfC1 "Associate ID" "Reports To Manager ID").edges :=
  ⟨by decide,
   c1_edge_direction dfC1 "Associate ID" "Reports To Manager ID"
     [Cell.str "A", Cell.str "B"] (by decide) (by decide) (by decide) (by decide)⟩

/-- Two-row cycle: A manages B and B manages A. -/
def dfC2cyc : DataFrame :=
  ⟨["Associate ID", "Reports To Manager ID"],
   [[Cell.str "A", Cell.str "B"], [Cell.str "B", Cell.str "A"]]⟩

/-- Acyclic variant with the same file: B has no manager. -/
def dfC2acyc : DataFrame :=
  ⟨["Associate ID", "Reports To Manager ID"],
   [[Cell.str "A", Cell.str "B"], [Cell.str "B", Cell.na]]⟩

/-- Claim C2 (counterexample): on the two-row cycle the entire observable
output of the tool body is the plain success message, equal to the
output on an acyclic table of the same file; no warning enumerating the
cycle edges is emitted anywhere, contradicting the claimed cycle
diagnostic. Both cycle edges are nevertheless present in the graph. -/
theorem c2_counterexample :
    processDf dfC2cyc none "/data/data.xlsx" = "Chart created: output/data_org_chart.html" ∧
    processDf dfC2cyc none "/data/data.xlsx" = processDf dfC2acyc none "/data/data.xlsx" ∧
    Edge.mk (Cell.str "A") (Cell.str "B") "reports_to"
        ∈ (build_graph_from_df dfC2cyc "Associate ID" "Reports To Manager ID").edges ∧
    Edge.mk (Cell.str "B") (Cell.str "A") "reports_to"
        ∈ (build_graph_from_df dfC2cyc "Associate ID" "Reports To Manager ID").edges := by
  exact ⟨by decide, by decide, by decide, by decide⟩

/-- Claim C2 (amended): a directed cycle never breaks the build: for two
rows reporting to each other both edges are retained in the graph. No
cycle warning exists (see the counterexample: the output is a constant
success message). -/
theorem c2_cycle_edges_retained (df : DataFrame) (aCol mCol : String)
    (r1 r2 : List Cell) (h1 : r1 ∈ df.rows) (h2 : r2 ∈ df.rows)
    (hid2 : rowGet df.cols r2 aCol = rowGet df.cols r1 mCol)
    (hm2 : rowGet df.cols r2 mCol = rowGet df.cols r1 aCol)
    (hna1 : rowGet df.cols r1 mCol ≠ Cell.na)
    (hne1 : rowGet df.cols r1 mCol ≠ Cell.str "")
    (hna2 : rowGet df.cols r1 aCol ≠ Cell.na)
    (hne2 : rowGet df.cols r1 aCol ≠ Cell.str "")
    (hs : rowGet df.cols r1 mCol ≠ rowGet df.cols r1 aCol) :
    Edge.mk (rowGet df.cols r1 aCol) (rowGet df.cols r1 mCol) "reports_to"
        ∈ (build_graph_from_df df aCol mCol).edges ∧
    Edge.mk (rowGet df.cols r1 mCol) (rowGet df.cols r1 aCol) "reports_to"
        ∈ (build_graph_from_df df aCol mCol).edges := by
  refine ⟨edge_mem_build df aCol mCol r1 h1 hna1 hne1 hs, ?_⟩
  have h := edge_mem_build df aCol mCol r2 h2
    (by rw [hm2]; exact hna2) (by rw [hm2]; exact hne2)
    (by rw [hm2, hid2]; exact Ne.symm hs)
  rw [hid2, hm2] at h
  exact h

/-- Witness for c2_cycle_edges_retained at the concrete two-row cycle. -/
theorem c2_cycle_edges_retained_witness :
    ([Cell.str "A", Cell.str "B"] ∈ dfC2cyc.rows) ∧
    ([Cell.str "B", Cell.str "A"] ∈ dfC2cyc.rows) ∧
    (Edge.mk (Cell.str "A") (Cell.str "B") "reports_to"
        ∈ (build_graph_from_df dfC2cyc "Associate ID" "Reports To Manager ID").edges ∧
     Edge.mk (Cell.str "B") (Cell.str "A") "reports_to"
        ∈ (build_graph_from_df dfC2cyc "Associate ID" "Reports To Manager ID").edges) :=
  ⟨by decide, by decide,
   c2_cycle_edges_retained dfC2cyc "Associate ID" "Reports To Manager ID"
     [Cell.str "A", Cell.str "B"] [Cell.str "B", Cell.str "A"]
     (by decide) (by decide) (by decide) (by decide)
     (by decide) (by decide) (by decide) (by decide) (by decide)⟩

/-- One-row table whose manager id "M999" matches no identifier. -/
def dfC3 : DataFrame :=
  ⟨["Associate ID", "Reports To Manager ID"], [[Cell.str "A", Cell.str "M999"]]⟩

/-- The same table with no manager reference at all. -/
def dfC3noDangle : DataFrame :=
  ⟨["Associate ID", "Reports To Manager ID"], [[Cell.str "A", Cell.na]]⟩

/-- Claim C3 (counterexample): the manager id "M999" matches no row
identifier of the table, yet the entire observable tool output is the
plain success message, equal to the output on the same table with no
manager reference; no warning reporting dangling manager ids is emitted,
contradicting the claimed broken-reference diagnostic. -/
theorem c3_counterexample :
    processDf dfC3 none "/data/data.csv" = "Chart created: output/data_org_chart.html" ∧
    processDf dfC3 none "/data/data.csv" = processDf dfC3noDangle none "/data/data.csv" ∧
    (∀ row ∈ dfC3.rows, rowGet dfC3.cols row "Associate ID" ≠ Cell.str "M999") := by
  exact ⟨by decide, by decide, by decide⟩

/-- Claim C3 (amended): a dangling manager reference never causes the
build to fail: the manager value becomes a node key of the graph (it is
created by add_edge) and the reporting edge is present; no warning
reports it. -/
theorem c3_dangling_never_fails (df : DataFrame) (aCol mCol : String) (row : List Cell)
    (hrow : row ∈ df.rows)
    (hna : rowGet df.cols row mCol ≠ Cell.na)
    (hne : rowGet df.cols row mCol ≠ Cell.str "")
    (hself : rowGet df.cols row mCol ≠ rowGet df.cols row aCol) :
    (build_graph_from_df df aCol mCol).nodes.any
        (fun p => p.1 == rowGet df.cols row mCol) = true ∧
    Edge.mk (rowGet df.cols row aCol) (rowGet df.cols row mCol) "reports_to"
        ∈ (build_graph_from_df df aCol mCol).edges :=
  ⟨manager_key_mem_build df aCol mCol row hrow hna hne hself,
   edge_mem_build df aCol mCol row hrow hna hne hself⟩

/-- Witness for c3_dangling_never_fails at the dangling-reference table. -/
theorem c3_dangling_never_fails_witness :
    ([Cell.str "A", Cell.str "M999"] ∈ dfC3.rows) ∧
    ((build_graph_from_df dfC3 "Associate ID" "Reports To Manager ID").nodes.any
        (fun p => p.1 == Cell.str "M999") = true ∧
     Edge.mk (Cell.str "A") (Cell.str "M999") "reports_to"
        ∈ (build_graph_from_df dfC3 "Associate ID" "Reports To Manager ID").edges) :=
  ⟨by decide,
   c3_dangling_never_fails dfC3 "Associate ID" "Reports To Manager ID"
     [Cell.str "A", Cell.str "M999"] (by decide) (by decide) (by decide) (by decide)⟩

/-- One-row table used as the C9 witness input. -/
def dfC9 : DataFrame :=
  ⟨["Associate ID", "Reports To Manager ID"], [[Cell.str "X", Cell.str "Y"]]⟩

/-- Claim C9: every edge of every built graph has distinct source and
target (no self-loops), and its target — always the manager value of the
contributing row — is neither missing nor the empty string, so no edge
arises from a null or empty manager value. -/
theorem c9_no_self_loops (df : DataFrame) (aCol mCol : String) (e : Edge)
    (he : e ∈ (build_graph_from_df df aCol mCol).edges) :
    e.src ≠ e.tgt ∧ e.tgt ≠ Cell.na ∧ e.tgt ≠ Cell.str "" :=
  foldl_buildStep_all_ok df.cols aCol mCol df.rows ⟨[], []⟩
    (fun e h => absurd h (List.not_mem_nil e)) e he

/-- Witness for c9_no_self_loops at a concrete edge of a concrete build. -/
theorem c9_no_self_loops_witness :
    (Edge.mk (Cell.str "X") (Cell.str "Y") "reports_to"
        ∈ (build_graph_from_df dfC9 "Associate ID" "Reports To Manager ID").edges) ∧
    (Cell.str "X" ≠ Cell.str "Y" ∧ Cell.str "Y" ≠ Cell.na ∧ Cell.str "Y" ≠ Cell.str "") :=
  ⟨by decide,
   c9_no_self_loops dfC9 "Associate ID" "Reports To Manager ID"
     (Edge.mk (Cell.str "X") (Cell.str "Y") "reports_to") (by decide)⟩

/-! ## Lemmas about the file resolver -/

/-- The confirmation branch of find_matching_file does not fire. -/
def NoConfirm (proceed : Option String) (memory : Memory) (session_id : String) : Prop :=
  truthyOpt proceed = false ∨ pyLower (proceed.getD "") ≠ "yes" ∨
    lookupKey memory session_id = none

/-- A non-empty optional string is truthy. -/
lemma truthy_some (r : String) (hr : r ≠ "") : truthyOpt (some r) = true := by
  show (!r.toList.isEmpty) = true
  cases hjs : r.toList.isEmpty
  · rfl
  · exfalso
    apply hr
    apply String.ext
    rw [List.isEmpty_iff] at hjs
    exact hjs

/-- Without a firing confirmation, find_matching_file is its elif chain. -/
lemma find_eq_findRest (pathOnDisk : String → Bool) (scorer : String → String → ℚ)
    (file_reference : Option String) (files : List String)
    (session_id : String) (proceed : Option String) (memory : Memory)
    (h : NoConfirm proceed memory session_id) :
    find_matching_file pathOnDisk scorer file_reference files session_id proceed memory
      = findRest pathOnDisk scorer file_reference files session_id memory := by
  unfold find_matching_file
  by_cases hb : (truthyOpt proceed && (pyLower (proceed.getD "") == "yes")) = true
  · rw [if_pos hb]
    rw [Bool.and_eq_true, beq_iff_eq] at hb
    rcases h with h | h | h
    · rw [h] at hb
      exact absurd hb.1 (by simp)
    · exact absurd hb.2 h
    · rw [h]
  · rw [if_neg hb]

/-- The confirmation branch: a truthy proceed lowercasing to "yes" with a
cached suggestion returns the popped suggestion. -/
lemma find_confirm (pathOnDisk : String → Bool) (scorer : String → String → ℚ)
    (file_reference : Option String) (files : List String)
    (session_id : String) (p : String) (memory : Memory) (path : String)
    (hp : truthyOpt (some p) = true) (hyes : pyLower p = "yes")
    (hlook : lookupKey memory session_id = some path) :
    find_matching_file pathOnDisk scorer file_reference files session_id (some p) memory
      = (FindResult.resolved path, eraseKey memory session_id) := by
  unfold find_matching_file
  rw [if_pos]
  · rw [hlook]
  · rw [Bool.and_eq_true, beq_iff_eq]
    exact ⟨hp, hyes⟩

/-- The direct-match branch of the elif chain: a non-empty reference whose
joined path exists on disk resolves to that path, untouched memory. -/
lemma findRest_exact (pathOnDisk : String → Bool) (scorer : String → String → ℚ)
    (r : String) (files : List String) (session_id : String) (memory : Memory)
    (hr : r ≠ "") (hex : pathOnDisk (osPathJoin "/data" r) = true) :
    findRest pathOnDisk scorer (some r) files session_id memory
      = (FindResult.resolved (osPathJoin "/data" r), memory) := by
  unfold findRest
  rw [if_pos]
  · rfl
  · rw [Bool.and_eq_true]
    exact ⟨truthy_some r hr, hex⟩

/-- The running maximum of the extractOne fold dominates the accumulator
and every scanned choice. -/
lemma extractOne_foldl_bound (scorer : String → String → ℚ) (q : String)
    (cs : List String) (acc : String × ℚ) :
    acc.2 ≤ (cs.foldl (fun best x =>
        if scorer q x > best.2 then (x, scorer q x) else best) acc).2 ∧
    ∀ x ∈ cs, scorer q x ≤ (cs.foldl (fun best x =>
        if scorer q x > best.2 then (x, scorer q x) else best) acc).2 := by
  induction cs generalizing acc with
  | nil =>
      refine ⟨le_refl _, ?_⟩
      intro x hx
      cases hx
  | cons c cs ih =>
      rw [List.foldl_cons]
      have h1 : acc.2 ≤ (if scorer q c > acc.2 then (c, scorer q c) else acc).2 := by
        split
        · exact le_of_lt (by assumption)
        · exact le_refl _
      have hc : scorer q c ≤ (if scorer q c > acc.2 then (c, scorer q c) else acc).2 := by
        split
        · exact le_refl _
        · exact le_of_not_lt (by assumption)
      obtain ⟨ha, hb⟩ := ih (if scorer q c > acc.2 then (c, scorer q c) else acc)
      refine ⟨le_trans h1 ha, ?_⟩
      intro x hx
      rcases List.mem_cons.mp hx with rfl | hmem
      · exact le_trans hc ha
      · exact hb x hmem

/-- extractOne returns the best score: every candidate scores at most it. -/
lemma extractOne_best (scorer : String → String → ℚ) (q : String)
    (files : List String) (b : String) (s : ℚ)
    (hext : extractOne scorer q files = some (b, s)) :
    ∀ c ∈ files, scorer q c ≤ s := by
  cases files with
  | nil => cases hext
  | cons f fs =>
      unfold extractOne at hext
      rw [Option.some_inj] at hext
      have hs : (fs.foldl (fun best x =>
          if scorer q x > best.2 then (x, scorer q x) else best) (f, scorer q f)).2 = s := by
        rw [hext]
      obtain ⟨ha, hb⟩ := extractOne_foldl_bound scorer q fs (f, scorer q f)
      intro c hc
      rcases List.mem_cons.mp hc with rfl | hmem
      · exact hs ▸ ha
      · exact hs ▸ hb c hmem

/-- The fuzzy branch of the elif chain: no direct match, so the best
extractOne result decides between the cached prompt and not-found. -/
lemma findRest_fuzzy (pathOnDisk : String → Bool) (scorer : String → String → ℚ)
    (r : String) (files : List String) (session_id : String) (memory : Memory)
    (b : String) (s : ℚ)
    (hr : r ≠ "") (hnex : pathOnDisk (osPathJoin "/data" r) = false)
    (hext : extractOne scorer r files = some (b, s)) :
    findRest pathOnDisk scorer (some r) files session_id memory
      = if s > 60 then
          (FindResult.prompt b, insertKey memory session_id (osPathJoin "/data" b))
        else (FindResult.notFound r files, memory) := by
  have hne : files.isEmpty = false := by
    cases files with
    | nil => cases hext
    | cons f fs => rfl
  unfold findRest
  simp only [Option.getD_some]
  rw [if_neg, if_pos]
  · rw [hext]
  · rw [Bool.and_eq_true]
    refine ⟨truthy_some r hr, ?_⟩
    rw [hne]
    rfl
  · rw [Bool.and_eq_true]
    rintro ⟨-, hcon⟩
    rw [hnex] at hcon
    exact Bool.false_ne_true hcon

/-- Whatever the elif chain does when the reference has no direct disk
match, it never returns a resolved path: the fuzzy branch only prompts
or reports not-found. -/
lemma findRest_not_resolved (pathOnDisk : String → Bool) (scorer : String → String → ℚ)
    (ref : Option String) (files : List String) (session_id : String) (memory : Memory)
    (hnex : ∀ r, ref = some r → pathOnDisk (osPathJoin "/data" r) = false) :
    ∀ x, (findRest pathOnDisk scorer ref files session_id memory).1
      ≠ FindResult.resolved x := by
  intro x
  unfold findRest
  split
  · rename_i h
    rw [Bool.and_eq_true] at h
    cases ref with
    | none => exact absurd h.1 (by simp [truthyOpt])
    | some r =>
        have h2 : pathOnDisk (osPathJoin "/data" r) = true := h.2
        rw [hnex r rfl] at h2
        exact absurd h2 (by simp)
  · split
    · split
      · split
        · simp
        · simp
      · simp
    · simp

/-- After erasing a key, its lookup in the erased dict misses. -/
lemma find?_eraseKey (m : Memory) (k : String) :
    (eraseKey m k).find? (fun p => p.1 == k) = none := by
  rw [List.find?_eq_none]
  intro p hp
  unfold eraseKey at hp
  rw [List.mem_filter] at hp
  have h2 := hp.2
  rw [bne_iff_ne] at h2
  rw [beq_iff_eq]
  exact h2

/-- Erasing a key removes it from lookup. -/
lemma lookupKey_eraseKey (m : Memory) (k : String) :
    lookupKey (eraseKey m k) k = none := by
  unfold lookupKey
  rw [find?_eraseKey]
  rfl

/-- Inserting a key makes it the lookup result, overwriting any prior
binding for the same key. -/
lemma lookupKey_insertKey (m : Memory) (k v : String) :
    lookupKey (insertKey m k v) k = some v := by
  unfold insertKey lookupKey
  rw [List.find?_append, find?_eraseKey]
  simp

/-- An elif chain seeing no reference returns the no-reference message. -/
lemma findRest_none_ref (pathOnDisk : String → Bool) (scorer : String → String → ℚ)
    (files : List String) (session_id : String) (memory : Memory) :
    findRest pathOnDisk scorer none files session_id memory
      = (FindResult.noReference files, memory) := rfl

/-! ## Claims about the file resolver -/

/-- Claim C5 (counterexample): the reference "a.xlsx" exactly matches a
candidate filename and exists on disk, but proceed="yes" together with a
cached suggestion for the session preempts the direct match: the
resolver returns the cached "/data/b.xlsx" and consumes the cache entry,
so the claimed unconditional direct return with untouched cache is false
at this input. -/
theorem c5_counterexample :
    find_matching_file (fun p => p == "/data/a.xlsx" || p == "/data/b.xlsx")
        (fun _ _ => (0 : ℚ)) (some "a.xlsx") ["a.xlsx", "b.xlsx"] "default"
        (some "yes") [("default", "/data/b.xlsx")]
      = (FindResult.resolved "/data/b.xlsx", []) ∧
    FindResult.resolved "/data/b.xlsx" ≠ FindResult.resolved "/data/a.xlsx" ∧
    ([] : Memory) ≠ [("default", "/data/b.xlsx")] := by
  exact ⟨by decide, by decide, by decide⟩

/-- Claim C5 (amended): provided no confirmation fires (proceed is not a
truthy "yes" or there is no cached suggestion for the session), every
non-empty reference that exactly matches a candidate filename — hence
exists in the data directory — resolves directly to the joined path with
the suggestion cache left unchanged: no fuzzy step, no cache write. -/
theorem c5_exact_match (pathOnDisk : String → Bool) (scorer : String → String → ℚ)
    (r : String) (files : List String) (session_id : String)
    (proceed : Option String) (memory : Memory)
    (hnc : NoConfirm proceed memory session_id)
    (_hmem : r ∈ files) (hr : r ≠ "")
    (hex : pathOnDisk (osPathJoin "/data" r) = true) :
    find_matching_file pathOnDisk scorer (some r) files session_id proceed memory
      = (FindResult.resolved (osPathJoin "/data" r), memory) := by
  rw [find_eq_findRest pathOnDisk scorer (some r) files session_id proceed memory hnc]
  exact findRest_exact pathOnDisk scorer r files session_id memory hr hex

/-- Witness for c5_exact_match at a concrete two-candidate directory. -/
theorem c5_exact_match_witness :
    NoConfirm none [] "default" ∧ ("a.xlsx" : String) ∈ ["a.xlsx", "b.xlsx"] ∧
    find_matching_file (fun p => p == "/data/a.xlsx" || p == "/data/b.xlsx")
        (fun _ _ => (0 : ℚ)) (some "a.xlsx") ["a.xlsx", "b.xlsx"] "default" none []
      = (FindResult.resolved "/data/a.xlsx", []) :=
  ⟨Or.inl rfl, by decide,
   c5_exact_match (fun p => p == "/data/a.xlsx" || p == "/data/b.xlsx")
     (fun _ _ => (0 : ℚ)) "a.xlsx" ["a.xlsx", "b.xlsx"] "default" none []
     (Or.inl rfl) (by decide) (by decide) (by decide)⟩

/-- Claim C6 (counterexample): with every candidate scoring 0 (at most
60) against the reference "zzz" — the partial-ratio score of "zzz"
against "a.xlsx" is indeed 0, there being no common characters — the
resolver still does not return the not-found result: proceed="yes" with
a cached suggestion preempts the fuzzy branch and returns the cached
path, consuming the entry. -/
theorem c6_counterexample :
    find_matching_file (fun p => p == "/data/a.xlsx") (fun _ _ => (0 : ℚ))
        (some "zzz") ["a.xlsx"] "default" (some "yes") [("default", "/data/a.xlsx")]
      = (FindResult.resolved "/data/a.xlsx", []) ∧
    ((0 : ℚ) ≤ 60) ∧
    FindResult.resolved "/data/a.xlsx" ≠ FindResult.notFound "zzz" ["a.xlsx"] := by
  exact ⟨by decide, by decide, by decide⟩

/-- Claim C6 (amended): provided no confirmation fires, for a non-empty
reference with no direct disk match and a non-empty candidate set, the
best-scoring candidate (it dominates every candidate score) decides:
at most 60 yields the not-found result listing all candidates, never a
prompt; above 60 the resolver caches the joined best candidate under the
session id — overwriting any prior entry, as the lookup after the write
shows — and returns the prompt naming that candidate. -/
theorem c6_threshold (pathOnDisk : String → Bool) (scorer : String → String → ℚ)
    (r : String) (files : List String) (session_id : String)
    (proceed : Option String) (memory : Memory) (b : String) (s : ℚ)
    (hnc : NoConfirm proceed memory session_id) (hr : r ≠ "")
    (hnex : pathOnDisk (osPathJoin "/data" r) = false)
    (hext : extractOne scorer r files = some (b, s)) :
    (∀ c ∈ files, scorer r c ≤ s) ∧
    (s ≤ 60 →
      find_matching_file pathOnDisk scorer (some r) files session_id proceed memory
        = (FindResult.notFound r files, memory)) ∧
    (60 < s →
      find_matching_file pathOnDisk scorer (some r) files session_id proceed memory
        = (FindResult.prompt b, insertKey memory session_id (osPathJoin "/data" b)) ∧
      lookupKey (insertKey memory session_id (osPathJoin "/data" b)) session_id
        = some (osPathJoin "/data" b)) := by
  refine ⟨extractOne_best scorer r files b s hext, ?_, ?_⟩
  · intro hle
    rw [find_eq_findRest pathOnDisk scorer (some r) files session_id proceed memory hnc,
        findRest_fuzzy pathOnDisk scorer r files session_id memory b s hr hnex hext,
        if_neg (not_lt.mpr hle)]
  · intro hgt
    refine ⟨?_, lookupKey_insertKey memory session_id (osPathJoin "/data" b)⟩
    rw [find_eq_findRest pathOnDisk scorer (some r) files session_id proceed memory hnc,
        findRest_fuzzy pathOnDisk scorer r files session_id memory b s hr hnex hext,
        if_pos hgt]

/-- Witness for c6_threshold: the sub-threshold half at a concrete
environment whose single candidate scores 0. -/
theorem c6_threshold_witness :
    extractOne (fun _ _ => (0 : ℚ)) "zzz" ["a.xlsx"] = some ("a.xlsx", 0) ∧
    find_matching_file (fun p => p == "/data/a.xlsx") (fun _ _ => (0 : ℚ))
        (some "zzz") ["a.xlsx"] "default" none []
      = (FindResult.notFound "zzz" ["a.xlsx"], []) :=
  ⟨by decide,
   (c6_threshold (fun p => p == "/data/a.xlsx") (fun _ _ => (0 : ℚ)) "zzz"
      ["a.xlsx"] "default" none [] "a.xlsx" 0
      (Or.inl rfl) (by decide) (by decide) (by decide)).2.1 (by decide)⟩

/-- Claim C7: confirming with a proceed value lowercasing to "yes" and a
cached suggestion returns the suggestion and removes it from the cache;
after the removal the session has no cached entry, so a second
confirmation (with a reference that has no direct disk match) cannot
return a resolved path; confirming with no prior suggestion is a cache
miss that behaves exactly like not confirming at all — in particular,
with no reference it returns the no-reference candidate listing rather
than crashing. -/
theorem c7_confirmation (pathOnDisk : String → Bool) (scorer : String → String → ℚ)
    (ref : Option String) (files : List String) (session_id : String) (memory : Memory) :
    (∀ p path, p ≠ "" → pyLower p = "yes" → lookupKey memory session_id = some path →
      find_matching_file pathOnDisk scorer ref files session_id (some p) memory
        = (FindResult.resolved path, eraseKey memory session_id)) ∧
    lookupKey (eraseKey memory session_id) session_id = none ∧
    ((∀ r, ref = some r → pathOnDisk (osPathJoin "/data" r) = false) →
      ∀ x, (find_matching_file pathOnDisk scorer ref files session_id (some "yes")
          (eraseKey memory session_id)).1 ≠ FindResult.resolved x) ∧
    (lookupKey memory session_id = none →
      find_matching_file pathOnDisk scorer ref files session_id (some "yes") memory
        = find_matching_file pathOnDisk scorer ref files session_id none memory) ∧
    (lookupKey memory session_id = none →
      find_matching_file pathOnDisk scorer none files session_id (some "yes") memory
        = (FindResult.noReference files, memory)) := by
  refine ⟨?_, lookupKey_eraseKey memory session_id, ?_, ?_, ?_⟩
  · intro p path hp hyes hlook
    exact find_confirm pathOnDisk scorer ref files session_id p memory path
      (truthy_some p hp) hyes hlook
  · intro h x
    rw [find_eq_findRest pathOnDisk scorer ref files session_id (some "yes")
        (eraseKey memory session_id) (Or.inr (Or.inr (lookupKey_eraseKey memory session_id)))]
    exact findRest_not_resolved pathOnDisk scorer ref files session_id
      (eraseKey memory session_id) h x
  · intro hl
    rw [find_eq_findRest pathOnDisk scorer ref files session_id (some "yes") memory
        (Or.inr (Or.inr hl)),
        find_eq_findRest pathOnDisk scorer ref files session_id none memory (Or.inl rfl)]
  · intro hl
    rw [find_eq_findRest pathOnDisk scorer none files session_id (some "yes") memory
        (Or.inr (Or.inr hl))]
    exact findRest_none_ref pathOnDisk scorer files session_id memory

/-- Witness for c7_confirmation: a concrete confirmation, with uppercase
"YES", returning and consuming the cached suggestion. -/
theorem c7_confirmation_witness :
    lookupKey [("default", "/data/b.xlsx")] "default" = some "/data/b.xlsx" ∧
    find_matching_file (fun _ => false) (fun _ _ => (0 : ℚ)) (some "b")
        ["b.xlsx"] "default" (some "YES") [("default", "/data/b.xlsx")]
      = (FindResult.resolved "/data/b.xlsx", []) :=
  ⟨by decide,
   (c7_confirmation (fun _ => false) (fun _ _ => (0 : ℚ)) (some "b") ["b.xlsx"]
      "default" [("default", "/data/b.xlsx")]).1 "YES" "/data/b.xlsx"
      (by decide) (by decide) (by decide)⟩

/-- Claim C10: when no confirmation fires, the direct-match step of the
resolver tests disk existence of the joined path, not membership in the
candidate set: any non-empty reference whose joined path exists resolves
to that path, whatever the candidate list contains. -/
theorem c10_direct_match_uses_disk (pathOnDisk : String → Bool)
    (scorer : String → String → ℚ) (r : String) (files : List String)
    (session_id : String) (proceed : Option String) (memory : Memory)
    (hnc : NoConfirm proceed memory session_id) (hr : r ≠ "")
    (hex : pathOnDisk (osPathJoin "/data" r) = true) :
    find_matching_file pathOnDisk scorer (some r) files session_id proceed memory
      = (FindResult.resolved (osPathJoin "/data" r), memory) := by
  rw [find_eq_findRest pathOnDisk scorer (some r) files session_id proceed memory hnc]
  exact findRest_exact pathOnDisk scorer r files session_id memory hr hex

/-- Witness for c10: "notes.txt" is absent from the candidate set (not a
spreadsheet extension) but exists in the data directory, and the
resolver returns it as resolved. -/
theorem c10_direct_match_uses_disk_witness :
    ("notes.txt" : String) ∉ ["a.xlsx"] ∧
    find_matching_file (fun p => p == "/data/notes.txt") (fun _ _ => (0 : ℚ))
        (some "notes.txt") ["a.xlsx"] "default" none []
      = (FindResult.resolved "/data/notes.txt", []) :=
  ⟨by decide,
   c10_direct_match_uses_disk (fun p => p == "/data/notes.txt") (fun _ _ => (0 : ℚ))
     "notes.txt" ["a.xlsx"] "default" none [] (Or.inl rfl) (by decide) (by decide)⟩

/-! ## Lemmas about the filter stage -/

/-- The row predicate of one filter pair, resolved against the original
columns: an unresolved key imposes no constraint (that case is only used
under resolvability hypotheses). -/
def filterPred (cols0 colsA : List String) (p : String × String) (row : List Cell) : Bool :=
  match normLookup cols0 (pyLower (pyStrip p.1)) with
  | some colname => pyLower (rowGet colsA row colname).pyStr == pyLower (pyStrip p.2)
  | none => true

/-- Keeping then mapping is a filterMap with a conditional function. -/
lemma filter_map_eq_filterMap {α β : Type} (p : α → Bool) (f : α → β) (l : List α) :
    (l.filter p).map f = l.filterMap (fun a => if p a then some (f a) else none) := by
  induction l with
  | nil => rfl
  | cons a as ih =>
      cases h : p a
      · rw [List.filter_cons_of_neg (by rw [h]; exact Bool.false_ne_true),
            List.filterMap_cons, if_neg (by rw [h]; exact Bool.false_ne_true), ih]
      · rw [List.filter_cons_of_pos h, List.map_cons,
            List.filterMap_cons, if_pos h, ih]

/-- When every key resolves, the filter loop succeeds and computes the
left-to-right conjunction of all pair predicates over the rows. -/
lemma applyFilters_ok (cols0 colsA : List String) (ps : List (String × String))
    (rows : List (List Cell))
    (h : ∀ p ∈ ps, (normLookup cols0 (pyLower (pyStrip p.1))).isSome = true) :
    applyFilters cols0 ⟨colsA, rows⟩ ps
      = Except.ok ⟨colsA, rows.filter (fun row =>
          ps.all (fun p => filterPred cols0 colsA p row))⟩ := by
  induction ps generalizing rows with
  | nil =>
      unfold applyFilters
      simp
  | cons p rest ih =>
      obtain ⟨k, v⟩ := p
      unfold applyFilters
      obtain ⟨c, hc⟩ := Option.isSome_iff_exists.mp
        (h (k, v) (List.mem_cons_self (k, v) rest))
      dsimp only
      rw [hc]
      refine Eq.trans (ih (rows.filter (fun row =>
          pyLower (rowGet colsA row c).pyStr == pyLower (pyStrip v)))
          (fun q hq => h q (List.mem_cons_of_mem (k, v) hq))) ?_
      congr 1
      rw [List.filter_filter]
      congr 1
      apply List.filter_congr
      intro r _
      rw [List.all_cons, Bool.and_comm]
      congr 1
      simp [filterPred, hc]

/-- The first unresolved key aborts the filter loop with the error
message naming that (normalized) key and the column list; later pairs
are never examined. -/
lemma applyFilters_error (cols0 colsA : List String) (rows : List (List Cell))
    (pre : List (String × String)) (k v : String) (post : List (String × String))
    (hpre : ∀ p ∈ pre, (normLookup cols0 (pyLower (pyStrip p.1))).isSome = true)
    (hk : normLookup cols0 (pyLower (pyStrip k)) = none) :
    applyFilters cols0 ⟨colsA, rows⟩ (pre ++ (k, v) :: post)
      = Except.error ("Filter column \x27" ++ pyLower (pyStrip k) ++
          "\x27 not found. Available columns are: " ++
          String.intercalate ", " colsA) := by
  induction pre generalizing rows with
  | nil =>
      rw [List.nil_append]
      unfold applyFilters
      dsimp only
      rw [hk]
  | cons q rest ih =>
      obtain ⟨k1, v1⟩ := q
      rw [List.cons_append]
      unfold applyFilters
      obtain ⟨c, hc⟩ := Option.isSome_iff_exists.mp
        (hpre (k1, v1) (List.mem_cons_self (k1, v1) rest))
      dsimp only
      rw [hc]
      exact ih _ (fun q hq => hpre q (List.mem_cons_of_mem (k1, v1) hq))

/-- A filter-stage error is returned verbatim by the tool body. -/
lemma processDf_filter_error (df : DataFrame) (f mf e : String)
    (hf : f.toList.isEmpty = false)
    (he : applyFilters df.cols df (parseFilters f) = Except.error e) :
    processDf df (some f) mf = e := by
  unfold processDf
  dsimp only
  rw [if_neg (ne_true_of_eq_false hf), he]

/-! ## Claims about the filter stage and the required-column check -/

/-- Claim C8: filter parsing keeps exactly the comma-separated fragments
containing an equals sign (the comprehension form); when every parsed
key resolves against the original columns, the loop narrows the rows to
those satisfying every pair predicate — stringified cell value,
lowercased, equal to the lowercased trimmed filter value — applied
conjunctively left to right; the first unresolvable key aborts with the
error naming that normalized key and listing all columns, whatever
comes after it; and the tool body returns that error verbatim. -/
theorem c8_filter_semantics (df : DataFrame) (fstr mf : String) :
    (parseFilters fstr = (splitOnChar ',' fstr).filterMap
        (fun kv => if kv.toList.contains '=' then some (splitFirstEq kv) else none)) ∧
    ((∀ p ∈ parseFilters fstr,
        (normLookup df.cols (pyLower (pyStrip p.1))).isSome = true) →
      applyFilters df.cols df (parseFilters fstr)
        = Except.ok ⟨df.cols, df.rows.filter (fun row =>
            (parseFilters fstr).all (fun p => filterPred df.cols df.cols p row))⟩) ∧
    (∀ pre k v post, parseFilters fstr = pre ++ (k, v) :: post →
      (∀ p ∈ pre, (normLookup df.cols (pyLower (pyStrip p.1))).isSome = true) →
      normLookup df.cols (pyLower (pyStrip k)) = none →
      applyFilters df.cols df (parseFilters fstr)
        = Except.error ("Filter column \x27" ++ pyLower (pyStrip k) ++
            "\x27 not found. Available columns are: " ++
            String.intercalate ", " df.cols)) ∧
    (∀ e, fstr.toList.isEmpty = false →
      applyFilters df.cols df (parseFilters fstr) = Except.error e →
      processDf df (some fstr) mf = e) := by
  refine ⟨?_, ?_, ?_, ?_⟩
  · unfold parseFilters
    exact filter_map_eq_filterMap _ _ _
  · intro h
    exact applyFilters_ok df.cols df.cols (parseFilters fstr) df.rows h
  · intro pre k v post hsplit hpre hk
    rw [hsplit]
    exact applyFilters_error df.cols df.cols df.rows pre k v post hpre hk
  · intro e hf he
    exact processDf_filter_error df fstr mf e hf he

/-- Three-row table exercising a two-pair conjunctive filter. -/
def dfC8 : DataFrame :=
  ⟨["Associate ID", "Reports To Manager ID", "Cost Center Name", "Job Title"],
   [[Cell.str "A", Cell.str "B", Cell.str "Woodland", Cell.str "Manager"],
    [Cell.str "B", Cell.na, Cell.str "Woodland", Cell.str "Clerk"],
    [Cell.str "C", Cell.str "B", Cell.str "Uptown", Cell.str "Manager"]]⟩

/-- Witness for c8_filter_semantics: the example filter narrows the
three-row table to the single row matching both predicates. -/
theorem c8_filter_semantics_witness :
    (∀ p ∈ parseFilters "Cost Center Name=Woodland,Job Title=Manager",
        (normLookup dfC8.cols (pyLower (pyStrip p.1))).isSome = true) ∧
    applyFilters dfC8.cols dfC8 (parseFilters "Cost Center Name=Woodland,Job Title=Manager")
      = Except.ok ⟨dfC8.cols,
          [[Cell.str "A", Cell.str "B", Cell.str "Woodland", Cell.str "Manager"]]⟩ := by
  refine ⟨by decide, ?_⟩
  rw [(c8_filter_semantics dfC8 "Cost Center Name=Woodland,Job Title=Manager"
      "/data/d.xlsx").2.1 (by decide)]
  exact congrArg Except.ok (by decide)

/-- One-row table whose identifier header carries surrounding blanks. -/
def dfC4 : DataFrame :=
  ⟨[" ASSOCIATE ID ", "Reports To Manager ID"], [[Cell.str "A", Cell.str "B"]]⟩

/-- Claim C4 (counterexample): the header " ASSOCIATE ID " does equal
"associate id" after lowercasing and trimming, yet the tool reports
"associate id" as a missing required column: the required-column check
lowercases only and never trims, so the claimed trim-insensitivity is
false at this input. -/
theorem c4_counterexample :
    pyStrip (pyLower " ASSOCIATE ID ") = "associate id" ∧
    processDf dfC4 none "/data/d.xlsx" = "Missing required columns: associate id" := by
  exact ⟨by decide, by decide⟩

/-- With no filter, a non-empty table reduces the tool body to the
required-column check: success message when nothing is missing, the
missing-columns message otherwise. -/
lemma processDf_none (df : DataFrame) (mf : String)
    (hrows : df.rows.isEmpty = false) (hcols : df.cols.isEmpty = false) :
    processDf df none mf
      = if (requiredMissing df.cols).isEmpty then
          "Chart created: " ++ outputPath mf "_org_chart"
        else
          "Missing required columns: " ++
            String.intercalate ", " (requiredMissing df.cols) := by
  unfold processDf
  dsimp only
  rw [hrows, hcols]
  cases hm : (requiredMissing df.cols).isEmpty
  · simp
  · simp [sanitize_filter_for_filename]

/-- Claim C4 (amended): a required canonical name is satisfied exactly by
a header equal to it after lowercasing only (no trimming); when nothing
is missing the tool proceeds to the chart, and when something is missing
the error names exactly the unmet canonical names — the computed missing
list — not the whole required set. -/
theorem c4_required_columns_lowercase_only (df : DataFrame) (mf : String)
    (hrows : df.rows.isEmpty = false) (hcols : df.cols.isEmpty = false) :
    (∀ r ∈ (["associate id", "reports to manager id"] : List String),
      (r ∈ requiredMissing df.cols ↔ ¬ ∃ c ∈ df.cols, pyLower c = r)) ∧
    (requiredMissing df.cols = [] →
      processDf df none mf = "Chart created: " ++ outputPath mf "_org_chart") ∧
    (requiredMissing df.cols ≠ [] →
      processDf df none mf
        = "Missing required columns: " ++
            String.intercalate ", " (requiredMissing df.cols)) := by
  refine ⟨?_, ?_, ?_⟩
  · intro r hr
    unfold requiredMissing
    rw [List.mem_filter]
    simp only [hr, true_and]
    simp [List.mem_map]
  · intro hmiss
    rw [processDf_none df mf hrows hcols, if_pos (by rw [hmiss]; rfl)]
  · intro hmiss
    rw [processDf_none df mf hrows hcols,
        if_neg (by rw [List.isEmpty_iff]; exact hmiss)]

/-- One-row table with cleanly spelled required headers. -/
def dfC4ok : DataFrame :=
  ⟨["Associate ID", "Reports To Manager ID"], [[Cell.str "A", Cell.str "B"]]⟩

/-- Witness for c4_required_columns_lowercase_only: mixed-case headers
with no surrounding blanks satisfy the requirement and the chart is
created. -/
theorem c4_required_columns_lowercase_only_witness :
    requiredMissing dfC4ok.cols = [] ∧
    processDf dfC4ok none "/data/d.xlsx" = "Chart created: output/d_org_chart.html" := by
  refine ⟨by decide, ?_⟩
  rw [(c4_required_columns_lowercase_only dfC4ok "/data/d.xlsx" rfl rfl).2.1 (by decide)]
  decide
